import Mathlib

/-!
Verification of the rate-limit / caching / bucketing layer of the
crypto-sentiment-analyzer server.

The embedding below translates the relevant JavaScript from `src/server.js`
(the authoritative current variant) and the hourly-bucketing variant in
`src/unnamed/part_000` into executable Lean definitions.  Instants are natural
numbers: milliseconds since the epoch for the rate-limit gate (mirroring
JavaScript `Date` arithmetic), seconds since the epoch for the bucket
aggregator (where only differences and divisibility by the bucket width
matter).
-/

namespace CryptoSentiment

/-- Ceiling division on naturals.  Models JavaScript
`Math.ceil(a / b)` for non-negative integer `a` and positive integer `b`. -/
def ceilDiv (a b : Nat) : Nat := (a + b - 1) / b

/-- Backoff delay in milliseconds for a given attempt count.  Models
`Math.min(baseDelay * Math.pow(2, attempts), maxDelay)` (seconds, with
`baseDelay = 15 * 60` and `maxDelay = 24 * 60 * 60`) scaled by the
`delay * 1000` conversion in `calculateResetTime` (src/server.js:162-167). -/
def delayMs (attempts : Nat) : Nat := 1000 * min (900 * 2 ^ attempts) 86400

/-- Translation of `calculateResetTime` (src/server.js:162-167): the reset
instant is `Date.now()` plus the capped exponential backoff delay. -/
def calculateResetTime (now attempts : Nat) : Nat := now + delayMs attempts

/-- Reset time produced by `setRateLimit` (src/server.js:315-336) when the
persisting upsert succeeds: it computes `nextAttempts = currentAttempts + 1`
and returns `calculateResetTime(nextAttempts)`. -/
def setRateLimitReset (now currentAttempts : Nat) : Nat :=
  calculateResetTime now (currentAttempts + 1)

/-- Translation of `setRateLimit` (src/server.js:315-336) with the storage
outcome of the `INSERT ... ON CONFLICT ... DO UPDATE` made explicit: when the
upsert throws, the `catch` clause returns the fixed default
`Date.now() + 15 * 60 * 1000` instead of propagating the error. -/
def setRateLimitResult (now currentAttempts : Nat) (writeFails : Bool) : Nat :=
  if writeFails then now + 15 * 60 * 1000 else setRateLimitReset now currentAttempts

/-- One row of the `rate_limits` table (src/server.js:354-359): `value` is the
persisted reset instant in milliseconds, `attempts` the attempt counter
(`INTEGER DEFAULT 0`, hence a natural number), `updatedAt` the write instant. -/
structure RateLimitRow where
  value : Nat
  attempts : Nat
  updatedAt : Nat
deriving DecidableEq

/-- Result record of `checkRateLimit` (src/server.js:181-224). -/
structure CheckResult where
  canMakeRequest : Bool
  resetTime : Nat
  waitSeconds : Nat
  attempts : Nat
deriving DecidableEq

/-- Translation of `checkRateLimit` (src/server.js:181-224).  The `SELECT` for
the singleton `twitter_rate_limit` row is modelled by the `Option RateLimitRow`
argument.  A present row with `resetTime > now` denies the request with
`waitSeconds = Math.max(0, Math.ceil((resetTime - now) / 1000))` and the stored
attempts; otherwise (row absent or expired) the request is allowed with
`attempts = 0`, `resetTime = now`, `waitSeconds = 0`. -/
def checkRateLimit (row : Option RateLimitRow) (now : Nat) : CheckResult :=
  match row with
  | some limit =>
    if now < limit.value then
      { canMakeRequest := false
        resetTime := limit.value
        waitSeconds := max 0 (ceilDiv (limit.value - now) 1000)
        attempts := limit.attempts }
    else
      { canMakeRequest := true, attempts := 0, resetTime := now, waitSeconds := 0 }
  | none => { canMakeRequest := true, attempts := 0, resetTime := now, waitSeconds := 0 }

/-- Claim C1: setRateLimit computes nextAttempts = currentAttempts + 1 and a
backoff delay of min(15 min * 2 ^ nextAttempts, 24 h); currentAttempts
0,1,2,3,4,5 give deltas of 30 min, 1 h, 2 h, 4 h, 8 h, 16 h, and every
currentAttempts >= 6 gives a delta of exactly 24 h. -/
theorem setRateLimit_backoff_schedule :
    (∀ now a, setRateLimitReset now a = now + 1000 * min (900 * 2 ^ (a + 1)) 86400) ∧
    (∀ now, setRateLimitReset now 0 = now + 30 * 60 * 1000 ∧
      setRateLimitReset now 1 = now + 60 * 60 * 1000 ∧
      setRateLimitReset now 2 = now + 2 * 60 * 60 * 1000 ∧
      setRateLimitReset now 3 = now + 4 * 60 * 60 * 1000 ∧
      setRateLimitReset now 4 = now + 8 * 60 * 60 * 1000 ∧
      setRateLimitReset now 5 = now + 16 * 60 * 60 * 1000) ∧
    (∀ now a, 6 ≤ a → setRateLimitReset now a = now + 24 * 60 * 60 * 1000) := by
  refine ⟨fun now a => rfl, fun now => ?_, fun now a ha => ?_⟩
  · refine ⟨?_, ?_, ?_, ?_, ?_, ?_⟩ <;>
      simp [setRateLimitReset, calculateResetTime, delayMs]
  · have h128 : (86400 : Nat) ≤ 900 * 2 ^ (a + 1) := by
      calc (86400 : Nat) ≤ 900 * 2 ^ 7 := by norm_num
        _ ≤ 900 * 2 ^ (a + 1) :=
          Nat.mul_le_mul_left _ (Nat.pow_le_pow_right (by norm_num) (by omega))
    simp [setRateLimitReset, calculateResetTime, delayMs, Nat.min_eq_right h128]

/-- Witness for C1: applying the schedule theorem at currentAttempts = 7. -/
theorem setRateLimit_backoff_schedule_witness :
    6 ≤ 7 ∧ setRateLimitReset 0 7 = 0 + 24 * 60 * 60 * 1000 :=
  ⟨by decide, setRateLimit_backoff_schedule.2.2 0 7 (by decide)⟩

/-- Claim C5: checkRateLimit permits with waitSeconds = 0 whenever the state is
absent or its resetAt is at most now, and otherwise denies with
waitSeconds = ceil((resetAt - now) in seconds) plus the stored resetAt and
attempts. -/
theorem checkRateLimit_spec :
    (∀ now, checkRateLimit none now =
        { canMakeRequest := true, resetTime := now, waitSeconds := 0, attempts := 0 }) ∧
    (∀ (row : RateLimitRow) (now : Nat), row.value ≤ now →
        checkRateLimit (some row) now =
          { canMakeRequest := true, resetTime := now, waitSeconds := 0, attempts := 0 }) ∧
    (∀ (row : RateLimitRow) (now : Nat), now < row.value →
        checkRateLimit (some row) now =
          { canMakeRequest := false, resetTime := row.value
            waitSeconds := ceilDiv (row.value - now) 1000, attempts := row.attempts }) := by
  refine ⟨fun now => rfl, fun row now h => ?_, fun row now h => ?_⟩
  · simp [checkRateLimit, Nat.not_lt.mpr h]
  · simp [checkRateLimit, h]

/-- Witness for C5: applying the spec theorem to a stored row with
resetAt = 10000 ms, attempts = 3 at now = 500 ms. -/
theorem checkRateLimit_spec_witness :
    500 < 10000 ∧
      checkRateLimit (some { value := 10000, attempts := 3, updatedAt := 0 }) 500 =
        { canMakeRequest := false, resetTime := 10000
          waitSeconds := ceilDiv (10000 - 500) 1000, attempts := 3 } :=
  ⟨by decide,
    checkRateLimit_spec.2.2 { value := 10000, attempts := 3, updatedAt := 0 } 500 (by decide)⟩

/-- Claim C10: setRateLimit never propagates a storage failure; on a failed
upsert it still returns a reset time, namely the fixed default now + 15 min,
and in every case the returned reset time lies strictly after now. -/
theorem setRateLimit_error_fallback :
    ∀ now a, setRateLimitResult now a true = now + 15 * 60 * 1000 ∧
      setRateLimitResult now a false = calculateResetTime now (a + 1) ∧
      (∀ writeFails, now < setRateLimitResult now a writeFails) := by
  intro now a
  refine ⟨rfl, rfl, fun writeFails => ?_⟩
  cases writeFails with
  | true => simp [setRateLimitResult]
  | false =>
    have hpos : 0 < delayMs (a + 1) := by
      have h1 : (0 : Nat) < 900 * 2 ^ (a + 1) := by positivity
      have h2 : (0 : Nat) < min (900 * 2 ^ (a + 1)) 86400 := lt_min h1 (by norm_num)
      exact Nat.mul_pos (by norm_num) h2
    simp only [setRateLimitResult, setRateLimitReset, calculateResetTime, Bool.false_eq_true,
      if_false]
    omega

/-- One row of the `mentions` table (src/server.js:342-349): a bucket timestamp
together with its mention count (both stored `NOT NULL`; `count` is the
non-negative bucket count). -/
structure MentionRow where
  timestamp : Nat
  count : Nat
deriving DecidableEq

/-- The persistent store visible to this layer: the singleton
`twitter_rate_limit` row of the `rate_limits` table and the rows of the
`mentions` table, the latter keyed by symbol. -/
structure Store where
  rateLimits : Option RateLimitRow
  mentions : List (String × MentionRow)

/-- Stateful reading of `checkRateLimit` (src/server.js:181-224): its body runs
a single `SELECT` on the store (modelled by reading `s.rateLimits`) and builds
its result from the row; it contains no `INSERT`, `UPDATE` or `DELETE`, so the
store is returned unchanged. -/
def checkRateLimitSt (now : Nat) (s : Store) : Store × CheckResult :=
  (s, checkRateLimit s.rateLimits now)

/-- Stateful translation of `setRateLimit` (src/server.js:315-336), the
contrasting mutator: the upsert replaces the singleton rate-limit row. -/
def setRateLimitSt (now currentAttempts : Nat) (s : Store) : Store × Nat :=
  ({ s with rateLimits := some { value := setRateLimitReset now currentAttempts
                                 attempts := currentAttempts + 1
                                 updatedAt := now } },
    setRateLimitReset now currentAttempts)

/-- Translation of the `POST /api/reset-rate-limit` handler
(src/server.js:294-312): `DELETE FROM rate_limits WHERE key =
'twitter_rate_limit'` removes the singleton row. -/
def resetRateLimitSt (s : Store) : Store := { s with rateLimits := none }

/-- Claim C8: checkRateLimit is side-effect-free: it leaves both the stored
rate-limit state and the mentions store unchanged, and its result is a pure
function of the read row. -/
theorem checkRateLimit_side_effect_free :
    ∀ (now : Nat) (s : Store),
      (checkRateLimitSt now s).1 = s ∧
      (checkRateLimitSt now s).1.rateLimits = s.rateLimits ∧
      (checkRateLimitSt now s).1.mentions = s.mentions ∧
      (checkRateLimitSt now s).2 = checkRateLimit s.rateLimits now :=
  fun _ _ => ⟨rfl, rfl, rfl, rfl⟩

/-- Shape of the JSON body returned by the mentions endpoint
(src/server.js:406-412 and 466-472). -/
structure MentionsResponse where
  timestamps : List Nat
  counts : List Nat
  totalMentions : Nat
  source : String
  period : String
deriving DecidableEq

/-- Cache-branch response of `GET /api/mentions` (src/server.js:404-413):
arrays of the cached timestamps and counts, with
`totalMentions = cachedData.reduce((sum, d) => sum + d.count, 0)`. -/
def cacheResponse (rows : List MentionRow) : MentionsResponse :=
  { timestamps := rows.map (fun d => d.timestamp)
    counts := rows.map (fun d => d.count)
    totalMentions := rows.foldl (fun sum d => sum + d.count) 0
    source := "cache"
    period := "1 hour" }

/-- One processed upstream data point (src/server.js:454-458): the bucket end
timestamp together with `tweet_count`. -/
structure DataPoint where
  timestamp : Nat
  count : Nat
deriving DecidableEq

/-- Upstream-branch response of `GET /api/mentions` (src/server.js:466-472). -/
def upstreamResponse (pts : List DataPoint) : MentionsResponse :=
  { timestamps := pts.map (fun d => d.timestamp)
    counts := pts.map (fun d => d.count)
    totalMentions := pts.foldl (fun sum d => sum + d.count) 0
    source := "twitter"
    period := "7 days" }

/-- Response returned when the upstream fetch yields no data
(src/server.js:443-452). -/
def emptyUpstreamResponse : MentionsResponse :=
  { timestamps := [], counts := [], totalMentions := 0
    source := "twitter", period := "7 days" }

/-- Helper: a left fold accumulating `f` over a list starting from `init`
equals `init` plus the sum of the mapped list. -/
theorem foldl_add_map_sum {α : Type} (f : α → Nat) :
    ∀ (l : List α) (init : Nat), l.foldl (fun sum d => sum + f d) init = init + (l.map f).sum := by
  intro l
  induction l with
  | nil => simp
  | cons a l ih =>
    intro init
    simp only [List.foldl_cons, List.map_cons, List.sum_cons, ih]
    omega

/-- Claim C9: in every successful JSON response of the mentions endpoint (cache
branch, upstream branch, and the empty upstream branch) totalMentions equals
the sum of the counts array and timestamps has the same length as counts. -/
theorem mentions_response_consistent :
    (∀ rows : List MentionRow,
        (cacheResponse rows).totalMentions = (cacheResponse rows).counts.sum ∧
        (cacheResponse rows).timestamps.length = (cacheResponse rows).counts.length) ∧
    (∀ pts : List DataPoint,
        (upstreamResponse pts).totalMentions = (upstreamResponse pts).counts.sum ∧
        (upstreamResponse pts).timestamps.length = (upstreamResponse pts).counts.length) ∧
    (emptyUpstreamResponse.totalMentions = emptyUpstreamResponse.counts.sum ∧
      emptyUpstreamResponse.timestamps.length = emptyUpstreamResponse.counts.length) := by
  refine ⟨fun rows => ⟨?_, ?_⟩, fun pts => ⟨?_, ?_⟩, by decide⟩
  · simpa [cacheResponse] using foldl_add_map_sum (fun d => d.count) rows 0
  · simp [cacheResponse]
  · simpa [upstreamResponse] using foldl_add_map_sum (fun d => d.count) pts 0
  · simp [upstreamResponse]

/-- One throttle recording in the `twitterError.code === 429` branch of
`GET /api/mentions` (src/server.js:482-494): the handler reads the current
attempts with `checkRateLimit()` and calls `setRateLimit(attempts)`, which
persists `{value = resetTime, attempts = nextAttempts, updated_at = NOW()}`. -/
def recordThrottleStep (now : Nat) (st : Option RateLimitRow) : RateLimitRow :=
  { value := setRateLimitReset now (checkRateLimit st now).attempts
    attempts := (checkRateLimit st now).attempts + 1
    updatedAt := now }

/-- Rows persisted by a sequence of throttle recordings at the given call
instants, starting from the state `st`. -/
def throttleTrace (st : Option RateLimitRow) : List Nat → List RateLimitRow
  | [] => []
  | t :: ts => recordThrottleStep t st :: throttleTrace (some (recordThrottleStep t st)) ts

/-- Helper: the backoff delay is monotone in the attempt count. -/
theorem delayMs_mono {a b : Nat} (h : a ≤ b) : delayMs a ≤ delayMs b := by
  unfold delayMs
  exact Nat.mul_le_mul_left _
    (min_le_min (Nat.mul_le_mul_left _ (Nat.pow_le_pow_right (by norm_num) h)) le_rfl)

/-- Helper: a throttle recording at an instant no earlier than the current
row's write instant never decreases the persisted reset time, provided the row
itself came from a throttle recording (so its reset time is its write instant
plus the delay for its attempt count). -/
theorem recordThrottleStep_value_mono (r : RateLimitRow) (t : Nat)
    (hr : r.value = r.updatedAt + delayMs r.attempts) (ht : r.updatedAt ≤ t) :
    r.value ≤ (recordThrottleStep t (some r)).value := by
  unfold recordThrottleStep setRateLimitReset calculateResetTime checkRateLimit
  by_cases h : t < r.value
  · simp only [h, if_true]
    calc r.value = r.updatedAt + delayMs r.attempts := hr
      _ ≤ t + delayMs (r.attempts + 1) := Nat.add_le_add ht (delayMs_mono (Nat.le_succ _))
  · simp only [h, if_false]
    exact le_trans (Nat.not_lt.mp h) (Nat.le_add_right _ _)

/-- Helper: along a run of throttle recordings at non-decreasing instants, the
persisted reset time never decreases. -/
theorem throttleTrace_chain :
    ∀ (ts : List Nat) (r : RateLimitRow),
      r.value = r.updatedAt + delayMs r.attempts →
      List.Chain' (· ≤ ·) (r.updatedAt :: ts) →
      List.Chain (fun a b => a.value ≤ b.value) r (throttleTrace (some r) ts) := by
  intro ts
  induction ts with
  | nil => intro r _ _; exact List.Chain.nil
  | cons t ts ih =>
    intro r hr hchain
    have hhead : r.updatedAt ≤ t := (List.chain'_cons.mp hchain).1
    have htail : List.Chain' (· ≤ ·) (t :: ts) := (List.chain'_cons.mp hchain).2
    refine List.Chain.cons (recordThrottleStep_value_mono r t hr hhead) ?_
    exact ih (recordThrottleStep t (some r)) rfl htail

/-- Claim C7: across every sequence of throttle recordings (no intervening
clear) at non-decreasing instants the persisted resetAt is monotonically
non-decreasing, and an explicit clear (the reset endpoint's DELETE) leaves the
channel immediately permitted with attempts = 0 and waitSeconds = 0. -/
theorem throttle_resetAt_monotone_clear :
    (∀ (st : Option RateLimitRow) (ts : List Nat), List.Chain' (· ≤ ·) ts →
        List.Chain' (fun a b => a.value ≤ b.value) (throttleTrace st ts)) ∧
    (∀ (s : Store) (now : Nat),
        (checkRateLimitSt now (resetRateLimitSt s)).2 =
          { canMakeRequest := true, resetTime := now, waitSeconds := 0, attempts := 0 }) := by
  constructor
  · intro st ts h
    cases ts with
    | nil => exact trivial
    | cons t ts =>
      show List.Chain (fun a b => a.value ≤ b.value) (recordThrottleStep t st) _
      exact throttleTrace_chain ts (recordThrottleStep t st) rfl h
  · intro s now
    rfl

/-- Witness for C7: the trace of two throttle recordings at instants 0 and
1000 starting from an empty store has non-decreasing reset times. -/
theorem throttle_resetAt_monotone_clear_witness :
    List.Chain' (· ≤ ·) [0, 1000] ∧
      List.Chain' (fun a b => a.value ≤ b.value) (throttleTrace none [0, 1000]) :=
  ⟨by simp, throttle_resetAt_monotone_clear.1 none [0, 1000] (by simp)⟩

/-- Symbol canonicalization in `GET /api/mentions` (src/server.js:398):
`symbol.startsWith('$') ? symbol : `$symbol``.  The one-character prefix test
is expressed on the character list of the string. -/
def formatSymbol (symbol : String) : String :=
  if symbol.data.head? = some '$' then symbol else "$" ++ symbol

/-- Control-flow outcome of the front part of `GET /api/mentions`
(src/server.js:388-428): reject a missing symbol, answer from cache, reject
when rate limited, or proceed to the upstream Twitter request. -/
inductive MentionsDecision where
  | badRequest
  | cacheHit (resp : MentionsResponse)
  | rateLimited (resetTime waitSeconds : Nat)
  | upstreamFetch (formattedSymbol : String)
deriving DecidableEq

/-- Decision logic of `GET /api/mentions` up to the upstream call
(src/server.js:388-431).  `store` gives the rows returned by
`getCachedData(formattedSymbol, 1)` (the freshness-window query, already
sorted ascending; a read failure yields `[]`); `rl` is the result of
`checkRateLimit()`.  A non-empty row set returns the cache response before the
rate limit is consulted and before any upstream request. -/
def mentionsDecision (symbol : String) (store : String → List MentionRow)
    (rl : CheckResult) : MentionsDecision :=
  if symbol = "" then MentionsDecision.badRequest
  else
    let cachedData := store (formatSymbol symbol)
    if 0 < cachedData.length then MentionsDecision.cacheHit (cacheResponse cachedData)
    else if rl.canMakeRequest = false then MentionsDecision.rateLimited rl.resetTime rl.waitSeconds
    else MentionsDecision.upstreamFetch (formatSymbol symbol)

/-- Claim C6: whenever the freshness-window query returns any rows, the
mentions endpoint answers from cache (source = "cache") regardless of the rate
limit state and without reaching the upstream fetch; "BTC" canonicalizes to
"$BTC", and one cached row for "$BTC" suffices for a cache answer to a "BTC"
request. -/
theorem cache_hit_short_circuit :
    (∀ (symbol : String) (store : String → List MentionRow) (rl : CheckResult),
        symbol ≠ "" → store (formatSymbol symbol) ≠ [] →
        mentionsDecision symbol store rl =
            MentionsDecision.cacheHit (cacheResponse (store (formatSymbol symbol))) ∧
          (cacheResponse (store (formatSymbol symbol))).source = "cache") ∧
    formatSymbol "BTC" = "$BTC" ∧
    (∀ (row : MentionRow) (rl : CheckResult),
        mentionsDecision "BTC" (fun s => if s = "$BTC" then [row] else []) rl =
          MentionsDecision.cacheHit (cacheResponse [row])) := by
  refine ⟨fun symbol store rl hsym hrows => ⟨?_, rfl⟩, by decide, fun row rl => ?_⟩
  · have hlen : 0 < (store (formatSymbol symbol)).length := List.length_pos.mpr hrows
    simp [mentionsDecision, hsym, hlen]
  · have hfmt : formatSymbol "BTC" = "$BTC" := by decide
    simp [mentionsDecision, hfmt]

/-- Witness for C6: a concrete store holding one row for "$BTC" answers a
"BTC" request from cache. -/
theorem cache_hit_short_circuit_witness :
    ("BTC" : String) ≠ "" ∧
      (fun s => if s = "$BTC" then [({ timestamp := 0, count := 5 } : MentionRow)] else [])
          (formatSymbol "BTC") ≠ [] ∧
      (mentionsDecision "BTC"
            (fun s => if s = "$BTC" then [({ timestamp := 0, count := 5 } : MentionRow)] else [])
            { canMakeRequest := false, resetTime := 99, waitSeconds := 99, attempts := 9 } =
          MentionsDecision.cacheHit (cacheResponse
            ((fun s => if s = "$BTC" then [({ timestamp := 0, count := 5 } : MentionRow)] else [])
              (formatSymbol "BTC"))) ∧
        (cacheResponse
            ((fun s => if s = "$BTC" then [({ timestamp := 0, count := 5 } : MentionRow)] else [])
              (formatSymbol "BTC"))).source = "cache") :=
  ⟨by decide, by decide,
    cache_hit_short_circuit.1 "BTC"
      (fun s => if s = "$BTC" then [({ timestamp := 0, count := 5 } : MentionRow)] else [])
      { canMakeRequest := false, resetTime := 99, waitSeconds := 99, attempts := 9 }
      (by decide) (by decide)⟩

/-- The write-through caching loop of the upstream branch
(src/server.js:460-464): `for (const dataPoint of processedData) { await
cacheData(...); }`.  `cacheData` (src/server.js:377-385) runs a single upsert
with no try/catch, so the first failing write escapes the loop as a thrown
error.  Each data point is paired with the success flag of its upsert. -/
def cacheWritesLoop : List (DataPoint × Bool) → Except Unit Unit
  | [] => Except.ok ()
  | (_, writeSucceeds) :: rest =>
    if writeSucceeds then cacheWritesLoop rest else Except.error ()

/-- Outcome of the upstream branch of the `GET /api/mentions` handler. -/
inductive HandlerResult where
  | success (resp : MentionsResponse)
  | rateLimited (resetTime waitSeconds : Nat)
  | serverError
deriving DecidableEq

/-- Remainder of the upstream branch after a successful fetch
(src/server.js:454-517): the caching loop runs before the response is built.
A storage error thrown by `cacheData` is caught by `catch (twitterError)`
(src/server.js:474); its code is a PostgreSQL error code, never the number
429, so the handler rethrows it (src/server.js:497) and the outer catch
responds with a 500 server error (src/server.js:500-512). -/
def upstreamSuccessBranch (pts : List (DataPoint × Bool)) : HandlerResult :=
  match cacheWritesLoop pts with
  | Except.ok _ => HandlerResult.success (upstreamResponse (pts.map Prod.fst))
  | Except.error _ => HandlerResult.serverError

/-- Counterexample to claim C2: with one fetched bucket whose cache write
fails, the handler returns a 500 server error, not the fetched series. -/
theorem cacheWrite_failure_aborts_cx :
    upstreamSuccessBranch [({ timestamp := 0, count := 3 }, false)] =
        HandlerResult.serverError ∧
      upstreamSuccessBranch [({ timestamp := 0, count := 3 }, false)] ≠
        HandlerResult.success (upstreamResponse [{ timestamp := 0, count := 3 }]) := by
  constructor
  · rfl
  · intro h
    exact absurd h (by decide)

/-- Helper: the caching loop succeeds exactly when every per-bucket write
succeeds. -/
theorem cacheWritesLoop_eq :
    ∀ pts : List (DataPoint × Bool),
      cacheWritesLoop pts =
        if pts.all (fun p => p.2) then Except.ok () else Except.error () := by
  intro pts
  induction pts with
  | nil => rfl
  | cons p rest ih =>
    obtain ⟨d, b⟩ := p
    cases b with
    | true => simpa [cacheWritesLoop] using ih
    | false => simp [cacheWritesLoop]

/-- Claim C2 amended: a storage write failure during write-through caching
aborts the request with a 500 server error; the fetched series is returned
exactly when every per-bucket cache write succeeds. -/
theorem cacheWrite_failure_aborts :
    ∀ pts : List (DataPoint × Bool),
      upstreamSuccessBranch pts =
        if pts.all (fun p => p.2) then
          HandlerResult.success (upstreamResponse (pts.map Prod.fst))
        else HandlerResult.serverError := by
  intro pts
  unfold upstreamSuccessBranch
  rw [cacheWritesLoop_eq]
  by_cases h : pts.all (fun p => p.2) <;> simp [h]

/-- Iterations of the bucket-boundary loop of the hourly aggregation
(src/unnamed/part_000:196-201): `for (let time = startTime; time <= endTime;
time += width) push(time)`, generalized from the fixed one-hour step to a
bucket width parameter as the spec does.  The JavaScript loop has no fuel; the
`fuel` argument only bounds the iteration count and `genBuckets` below passes
`e + 1 - start`, which the adequacy lemma `genBucketsAux_eq` shows is never
exhausted for a positive width. -/
def genBucketsAux (width : Nat) : Nat → Nat → Nat → List Nat
  | 0, _, _ => []
  | fuel + 1, time, e =>
    if time ≤ e then time :: genBucketsAux width fuel (time + width) e else []

/-- Bucket boundaries generated for the window `[start, e]` at the given
width (src/unnamed/part_000:196-201; the seeded keys of `hourlyData`). -/
def genBuckets (width start e : Nat) : List Nat :=
  genBucketsAux width (e + 1 - start) start e

/-- Timestamp flooring of the aggregation (src/unnamed/part_000:206-208):
`tweetTime.setMinutes(0, 0, 0)` floors an instant to the enclosing multiple of
the bucket width (3600 s for the hourly variant, since the epoch is
hour-aligned), here generalized over the width. -/
def floorTo (width t : Nat) : Nat := width * (t / width)

/-- The aggregation step of `GET /api/mentions` in the hourly variant
(src/unnamed/part_000:193-217): the `hourlyData` map is seeded with a zero for
every generated boundary, each event increments the entry of its floored
timestamp (creating entries for non-boundary keys), and the output lists, per
generated boundary in order, that boundary with its final count, i.e. the
number of events whose floored timestamp equals the boundary.  Entries created
under non-boundary keys do not appear in the output. -/
def aggregate (events : List Nat) (start e width : Nat) : List (Nat × Nat) :=
  (genBuckets width start e).map
    (fun b => (b, events.countP (fun t => floorTo width t == b)))

/-- Helper: pushing the affine map through a range of successors. -/
theorem range_map_affine_cons (t w n : Nat) :
    (List.range (n + 1)).map (fun k => t + k * w) =
      t :: (List.range n).map (fun k => t + w + k * w) := by
  rw [List.range_succ_eq_map, List.map_cons, List.map_map]
  have hf : ((fun k => t + k * w) ∘ Nat.succ) = fun k => t + w + k * w := by
    funext k
    simp only [Function.comp, Nat.succ_mul]
    ring
  simp [hf]

/-- Helper: adequacy of the fuelled loop: with enough fuel it produces exactly
the multiples of the width from `time` up to `e`. -/
theorem genBucketsAux_eq (width : Nat) (hw : 0 < width) :
    ∀ (fuel time e : Nat), e + 1 - time ≤ fuel →
      genBucketsAux width fuel time e =
        if time ≤ e then
          (List.range ((e - time) / width + 1)).map (fun k => time + k * width)
        else [] := by
  intro fuel
  induction fuel with
  | zero =>
    intro time e h
    have hte : ¬ time ≤ e := by omega
    simp [genBucketsAux, hte]
  | succ fuel ih =>
    intro time e h
    by_cases hte : time ≤ e
    · simp only [genBucketsAux, hte, if_true]
      rw [ih (time + width) e (by omega)]
      by_cases h2 : time + width ≤ e
      · simp only [h2, if_true]
        have hdiv : (e - time) / width = (e - (time + width)) / width + 1 := by
          have h3 : width ≤ e - time := by omega
          rw [Nat.div_eq_sub_div hw h3]
          have h4 : e - time - width = e - (time + width) := by omega
          rw [h4]
        rw [hdiv]
        conv_rhs => rw [range_map_affine_cons]
      · simp only [h2, if_false]
        have hd0 : (e - time) / width = 0 := Nat.div_eq_of_lt (by omega)
        simp [hd0, List.range_succ]
    · simp [genBucketsAux, hte]

/-- Helper: closed form of the generated boundaries for a non-degenerate
window. -/
theorem genBuckets_eq (width start e : Nat) (hw : 0 < width) (hse : start ≤ e) :
    genBuckets width start e =
      (List.range ((e - start) / width + 1)).map (fun k => start + k * width) := by
  rw [genBuckets, genBucketsAux_eq width hw _ _ _ le_rfl, if_pos hse]

/-- Helper: an empty window generates no boundaries. -/
theorem genBuckets_nil (width start e : Nat) (hse : e < start) :
    genBuckets width start e = [] := by
  unfold genBuckets
  have h0 : e + 1 - start = 0 := by omega
  rw [h0]
  rfl

/-- Helper: the generated boundaries are pairwise distinct. -/
theorem genBuckets_nodup (width start e : Nat) (hw : 0 < width) :
    (genBuckets width start e).Nodup := by
  by_cases hse : start ≤ e
  · rw [genBuckets_eq width start e hw hse]
    refine List.Nodup.map ?_ (List.nodup_range _)
    intro a b hab
    exact Nat.eq_of_mul_eq_mul_right hw (Nat.add_left_cancel hab)
  · rw [genBuckets_nil width start e (by omega)]
    exact List.nodup_nil

/-- Helper: the generated boundaries are strictly increasing. -/
theorem genBuckets_sorted (width start e : Nat) (hw : 0 < width) :
    List.Pairwise (· < ·) (genBuckets width start e) := by
  by_cases hse : start ≤ e
  · rw [genBuckets_eq width start e hw hse]
    refine List.Pairwise.map _ ?_ (List.pairwise_lt_range _)
    intro a b hab
    exact Nat.add_lt_add_left (Nat.mul_lt_mul_of_lt_of_le hab le_rfl hw) start
  · rw [genBuckets_nil width start e (by omega)]
    exact List.Pairwise.nil

/-- Counterexample to claim C3: for the window [0, 5400] with width 3600 the
loop generates 2 boundaries (0 and 3600), not ceil(5400 / 3600) + 1 = 3. -/
theorem bucket_count_ceil_cx :
    (genBuckets 3600 0 5400).length = 2 ∧
      ceilDiv (5400 - 0) 3600 + 1 = 3 ∧
      (genBuckets 3600 0 5400).length ≠ ceilDiv (5400 - 0) 3600 + 1 := by
  have hlen : (genBuckets 3600 0 5400).length = 2 := by
    rw [genBuckets_eq 3600 0 5400 (by norm_num) (by norm_num)]
    decide
  exact ⟨hlen, by decide, by rw [hlen]; decide⟩

/-- Claim C3 amended: for every window with windowStart < windowEnd and a
positive width, the generated series has floor((windowEnd - windowStart) /
bucketWidth) + 1 buckets (the ceiling form of the claim holds only when the
width divides the window length), the boundaries are windowStart + k * width,
each present exactly once in ascending order, and zero events give the
all-zero dense series. -/
theorem bucket_series_dense_sorted (width start e : Nat) (hw : 0 < width) (hse : start < e) :
    (genBuckets width start e).length = (e - start) / width + 1 ∧
    genBuckets width start e =
      (List.range ((e - start) / width + 1)).map (fun k => start + k * width) ∧
    (genBuckets width start e).Nodup ∧
    List.Pairwise (· < ·) (genBuckets width start e) ∧
    aggregate [] start e width = (genBuckets width start e).map (fun b => (b, 0)) := by
  have heq := genBuckets_eq width start e hw (le_of_lt hse)
  refine ⟨?_, heq, genBuckets_nodup width start e hw, genBuckets_sorted width start e hw, ?_⟩
  · rw [heq]
    simp
  · unfold aggregate
    simp

/-- Witness for C3 amended: the two-hour window [0, 7200] at width 3600. -/
theorem bucket_series_dense_sorted_witness :
    0 < 3600 ∧ 0 < 7200 ∧
      ((genBuckets 3600 0 7200).length = (7200 - 0) / 3600 + 1 ∧
        genBuckets 3600 0 7200 =
          (List.range ((7200 - 0) / 3600 + 1)).map (fun k => 0 + k * 3600) ∧
        (genBuckets 3600 0 7200).Nodup ∧
        List.Pairwise (· < ·) (genBuckets 3600 0 7200) ∧
        aggregate [] 0 7200 3600 = (genBuckets 3600 0 7200).map (fun b => (b, 0))) :=
  ⟨by decide, by decide, bucket_series_dense_sorted 3600 0 7200 (by decide) (by decide)⟩

/-- Helper: sums of pointwise-added maps split. -/
theorem sum_map_add {α : Type} (l : List α) (f g : α → Nat) :
    (l.map (fun a => f a + g a)).sum = (l.map f).sum + (l.map g).sum := by
  induction l with
  | nil => simp
  | cons a l ih =>
    simp only [List.map_cons, List.sum_cons, ih]
    omega

/-- Helper: over a duplicate-free list, the indicator of equality with `x`
sums to 1 or 0 according to membership of `x`. -/
theorem sum_indicator_mem (x : Nat) :
    ∀ B : List Nat, B.Nodup →
      (B.map (fun b => if x == b then 1 else 0)).sum = if x ∈ B then 1 else 0 := by
  intro B
  induction B with
  | nil => simp
  | cons b B ih =>
    intro hnd
    obtain ⟨hb, hnd2⟩ := List.nodup_cons.mp hnd
    by_cases hxb : x = b
    · subst hxb
      have hzero : (B.map (fun c => if x == c then 1 else 0)).sum = 0 := by
        refine List.sum_eq_zero ?_
        intro y hy
        obtain ⟨c, hc, hcy⟩ := List.mem_map.mp hy
        have hxc : ¬ (x == c) = true := by
          intro hc2
          exact hb (beq_iff_eq.mp hc2 ▸ hc)
        rw [if_neg hxc] at hcy
        omega
      rw [List.map_cons, List.sum_cons, hzero]
      simp [List.mem_cons]
    · have hne : ¬ (x == b) = true := by
        intro hc2
        exact hxb (beq_iff_eq.mp hc2)
      simp only [List.map_cons, List.sum_cons, if_neg hne, ih hnd2, List.mem_cons]
      simp [hxb]

/-- Helper: summing per-boundary counts over duplicate-free boundaries counts
the events whose floored key is one of the boundaries. -/
theorem sum_counts_eq_countP (B : List Nat) (hB : B.Nodup) (f : Nat → Nat) :
    ∀ events : List Nat,
      (B.map (fun b => events.countP (fun t => f t == b))).sum =
        events.countP (fun t => decide (f t ∈ B)) := by
  intro events
  induction events with
  | nil =>
    have hall : ∀ y ∈ B.map (fun b => List.countP (fun t => f t == b) []), y = 0 := by
      intro y hy
      obtain ⟨b, _, hby⟩ := List.mem_map.mp hy
      simpa [List.countP_nil] using hby.symm
    rw [List.sum_eq_zero hall, List.countP_nil]
  | cons t ts ih =>
    have hsplit :
        (B.map (fun b => List.countP (fun u => f u == b) (t :: ts))).sum =
          (B.map (fun b => List.countP (fun u => f u == b) ts)).sum +
            (B.map (fun b => if f t == b then 1 else 0)).sum := by
      have hfun : (fun b => List.countP (fun u => f u == b) (t :: ts)) =
          fun b => List.countP (fun u => f u == b) ts + if f t == b then 1 else 0 := by
        funext b
        rw [List.countP_cons]
      rw [hfun, sum_map_add]
    rw [hsplit, ih, sum_indicator_mem (f t) B hB, List.countP_cons]
    by_cases hmem : f t ∈ B <;> simp [hmem]

/-- Counterexample to claim C4: in the window [1800, 5400] with width 3600 the
single in-window event at 3600 floors to the clock-aligned key 3600, which is
not one of the generated boundaries 1800 and 5400, so the aggregated counts
sum to 0 although one event lies in the window. -/
theorem aggregate_sum_window_cx :
    ((aggregate [3600] 1800 5400 3600).map Prod.snd).sum = 0 ∧
      List.countP (fun t => decide (1800 ≤ t ∧ t ≤ 5400)) [3600] = 1 ∧
      ((aggregate [3600] 1800 5400 3600).map Prod.snd).sum ≠
        List.countP (fun t => decide (1800 ≤ t ∧ t ≤ 5400)) [3600] := by
  have hgb : genBuckets 3600 1800 5400 = [1800, 5400] := by
    rw [genBuckets_eq 3600 1800 5400 (by norm_num) (by norm_num)]
    decide
  have h0 : ((aggregate [3600] 1800 5400 3600).map Prod.snd).sum = 0 := by
    unfold aggregate
    rw [hgb]
    decide
  exact ⟨h0, by decide, by rw [h0]; decide⟩

/-- Claim C4 amended: for every event set and window with positive width, the
sum of the aggregated counts equals the number of events whose floored
timestamp is one of the generated bucket boundaries — not the number of
events inside [windowStart, windowEnd]: an in-window event whose clock-floored
key misses every boundary (possible whenever windowStart is not width-aligned)
is dropped, and an out-of-window event whose floored key hits a boundary is
counted. -/
theorem aggregate_sum_floored_members (events : List Nat) (start e width : Nat)
    (hw : 0 < width) :
    ((aggregate events start e width).map Prod.snd).sum =
      events.countP (fun t => decide (floorTo width t ∈ genBuckets width start e)) := by
  unfold aggregate
  rw [List.map_map]
  exact sum_counts_eq_countP (genBuckets width start e)
    (genBuckets_nodup width start e hw) (floorTo width) events

/-- Witness for C4 amended: two events in the hour-aligned window [0, 3600]. -/
theorem aggregate_sum_floored_members_witness :
    0 < 3600 ∧
      ((aggregate [0, 3600] 0 3600 3600).map Prod.snd).sum =
        List.countP (fun t => decide (floorTo 3600 t ∈ genBuckets 3600 0 3600)) [0, 3600] :=
  ⟨by decide, aggregate_sum_floored_members [0, 3600] 0 3600 3600 (by decide)⟩

end CryptoSentiment
